import Mathlib

/-!
Verification of the Tiny FOB v2 redirector (src/index.js) against its
natural-language specification.

The repository file concatenates two variants of the server: a first ESM
variant and a hardened CommonJS variant.  The hardened variant is the one
the specification describes (it alone has the allowlist validator, the kill
switch and the admin export endpoints), so the request pipeline below embeds
the hardened variant; the first variant is embedded only where a claim
names it (its adminOK function).

External collaborators (the WHATWG URL parser, the Postgres date cast, the
JSON and CSV serializers) are passed in as abstract functions in a Codecs
record, mirroring the spec treatment of them as external.  Machine-level
JS details that the claims depend on are modelled explicitly: JS logical-or
treats the empty string as falsy, a missing header and an unset environment
variable are both undefined (Option.none), and undefined === undefined is
true.
-/

namespace TinyFob

/-- Result of the WHATWG URL parser as used by the code: only the protocol
(including the trailing colon, e.g. "https:") and the hostname are read. -/
structure URLParts where
  protocol : String
  hostname : String
deriving DecidableEq, Repr

/-- A calendar date, the value of a Postgres ::date cast. -/
structure PgDate where
  y : Nat
  m : Nat
  d : Nat
deriving DecidableEq, Repr

/-- A TIMESTAMPTZ value: the code only ever compares its date component
(ts::date), so it is modelled as a date plus an opaque time of day. -/
structure Timestamp where
  date : PgDate
  tod : Nat
deriving DecidableEq, Repr

/-- One row of the clicks table (id SERIAL PRIMARY KEY, ts TIMESTAMPTZ,
slug TEXT, dest TEXT, ip TEXT, ua TEXT). -/
structure ClickEvent where
  id : Nat
  ts : Timestamp
  slug : String
  dest : String
  ip : String
  ua : String
deriving DecidableEq, Repr

/-- A row of the /admin/last result: SELECT ts, slug, left(dest, 60) AS dest. -/
structure LastRow where
  ts : Timestamp
  slug : String
  dest : String
deriving DecidableEq, Repr

/-- The parts of an HTTP request the embedded handlers read.  Missing
headers and query parameters are none, matching undefined in JS. -/
structure Request where
  method : String
  path : String
  queryDest : Option String
  queryDay : Option String
  xForwardedFor : Option String
  ip : String
  userAgent : Option String
  adminPass : Option String
deriving DecidableEq, Repr

/-- The parts of an HTTP response the claims observe. -/
structure Response where
  status : Nat
  location : Option String
  headers : List (String × String)
  body : String
deriving DecidableEq, Repr

/-- State of the express-rate-limit memory store: the start of the current
fixed window and the hit count per client key. -/
structure RateState where
  windowStart : Nat
  hits : List (String × Nat)
deriving DecidableEq, Repr

/-- Process-wide mutable state: the kill switch (app.locals.killed), the
clicks table in insertion order (SERIAL ids ascending), the clicks_total
counter per slug label, and the rate limiter store. -/
structure ServerState where
  killed : Bool
  clicks : List ClickEvent
  counters : List (String × Nat)
  rate : RateState
deriving DecidableEq, Repr

/-- Environment-sourced configuration read at startup. -/
structure Config where
  fobAdminPass : Option String
  databaseUrl : String
  destHostAllowlistEnv : String
deriving DecidableEq, Repr

/-- External collaborators: URL parsing, the Postgres date cast, and the
serializers used for response bodies. -/
structure Codecs where
  parseURL : String → Option URLParts
  parseDate : String → Option PgDate
  encLastJson : List LastRow → String
  encCsv : List ClickEvent → String
  encMetrics : List (String × Nat) → String
  encStatusJson : Bool → String → Nat → String

/-- Embedding of String.prototype.toLowerCase as used on ASCII hostnames,
written by structural recursion on the character list so that concrete
instances evaluate inside the kernel (core String.toLower is defined by
well-founded recursion on byte positions and does not reduce). -/
def lowerStr (s : String) : String := ⟨s.data.map Char.toLower⟩

/-- Embedding of String.prototype.trim: drop whitespace from both ends. -/
def trimStr (s : String) : String :=
  ⟨((s.data.dropWhile Char.isWhitespace).reverse.dropWhile Char.isWhitespace).reverse⟩

/-- Embedding of String.prototype.startsWith. -/
def startsWithStr (s p : String) : Bool := p.data.isPrefixOf s.data

/-- Character-counted take (String.prototype.slice(0, n), SQL left(s, n)),
written over the character list so that it evaluates in the kernel. -/
def takeStr (s : String) (n : Nat) : String := ⟨s.data.take n⟩

/-- Character-counted drop, used to extract the :slug route parameter. -/
def dropStr (s : String) (n : Nat) : String := ⟨s.data.drop n⟩

/-- Character membership test. -/
def containsChar (s : String) (c : Char) : Bool := s.data.contains c

/-- Splitting helper for String.prototype.split(sep) with a one-character
separator. -/
def splitAux (sep : Char) : List Char → List Char → List String
  | [], acc => [⟨acc.reverse⟩]
  | c :: cs, acc =>
    if c = sep then ⟨acc.reverse⟩ :: splitAux sep cs []
    else splitAux sep cs (c :: acc)

/-- Embedding of String.prototype.split(",") as used on the allowlist
environment variable and the x-forwarded-for header. -/
def splitComma (s : String) : List String := splitAux ',' s.data []

/-- ADMIN = process.env.FOB_ADMIN_PASS || "testpass" (JS or is falsy on
the empty string, and an unset variable is undefined). -/
def ADMIN (env : Option String) : String :=
  match env with
  | none => "testpass"
  | some s => if s = "" then "testpass" else s

/-- Hardened variant adminOK: req.get("x-admin-pass") === ADMIN.  The left
side is the header (undefined when absent), the right side is the resolved
secret string. -/
def adminOK (secret : String) (header : Option String) : Bool :=
  header == some secret

/-- First variant adminOK: req.get("x-admin-pass") === process.env.FOB_ADMIN_PASS,
a direct triple-equals of two possibly-undefined values. -/
def adminOKFirst (header envPass : Option String) : Bool :=
  header == envPass

/-- DEST_HOST_ALLOWLIST = env.split(",").map(s.trim().toLowerCase()).filter(Boolean). -/
def parseAllowlist (env : String) : List String :=
  ((splitComma env).map (fun s => lowerStr (trimStr s))).filter (fun s => decide (s ≠ ""))

/-- The hardcoded safe fallback destination used both as the default dest
query parameter and as the replacement for rejected destinations. -/
def fallbackDest : String := "https://example.com"

/-- isAllowedDest of the hardened variant: parse the raw string as a URL
(false on a parse failure), require protocol http: or https:, allow any
host when the allowlist is empty, otherwise require the lowercased
hostname to be listed. -/
def isAllowedDest (parse : String → Option URLParts) (allowlist : List String)
    (raw : String) : Bool :=
  match parse raw with
  | none => false
  | some u =>
    if u.protocol ≠ "https:" ∧ u.protocol ≠ "http:" then false
    else if allowlist.length = 0 then true
    else allowlist.contains (lowerStr u.hostname)

/-- rawDest = req.query.dest || "https://example.com" (missing and empty
query values both fall back, by JS falsiness). -/
def resolveRawDest (q : Option String) : String :=
  match q with
  | none => fallbackDest
  | some s => if s = "" then fallbackDest else s

/-- dest = isAllowedDest(rawDest) ? rawDest : "https://example.com". -/
def resolveDest (parse : String → Option URLParts) (allowlist : List String)
    (raw : String) : String :=
  if isAllowedDest parse allowlist raw then raw else fallbackDest

/-- Acceptance condition of the Destination Validator as the specification
words it: the string parses as an absolute URL whose scheme is http or
https and, when the configured allowlist is non-empty, whose lowercased
hostname is a member of the allowlist.  Stated from the spec for
comparison against isAllowedDest, which is translated from the source. -/
def specValidatorAccepts (parse : String → Option URLParts) (allowlist : List String)
    (raw : String) : Prop :=
  ∃ u, parse raw = some u ∧ (u.protocol = "http:" ∨ u.protocol = "https:") ∧
    (allowlist ≠ [] → lowerStr u.hostname ∈ allowlist)

theorem isAllowedDest_iff (parse : String → Option URLParts) (allowlist : List String)
    (raw : String) :
    isAllowedDest parse allowlist raw = true ↔ specValidatorAccepts parse allowlist raw := by
  unfold isAllowedDest specValidatorAccepts
  cases hp : parse raw with
  | none => simp
  | some u =>
    simp only [Option.some.injEq]
    constructor
    · intro h
      refine ⟨u, rfl, ?_⟩
      by_cases hproto : u.protocol ≠ "https:" ∧ u.protocol ≠ "http:"
      · rw [if_pos hproto] at h; cases h
      · rw [if_neg hproto] at h
        push_neg at hproto
        constructor
        · by_cases h1 : u.protocol = "https:"
          · exact Or.inr h1
          · exact Or.inl (hproto h1)
        · intro hne
          have hlen : ¬ allowlist.length = 0 := by
            simpa [List.length_eq_zero] using hne
          rw [if_neg hlen] at h
          simpa using h
    · rintro ⟨u2, hu2, hproto, hmem⟩
      cases hu2
      have hnp : ¬ (u.protocol ≠ "https:" ∧ u.protocol ≠ "http:") := by
        rcases hproto with h1 | h1 <;> simp [h1]
      rw [if_neg hnp]
      by_cases hlen : allowlist.length = 0
      · rw [if_pos hlen]
      · rw [if_neg hlen]
        have hne : allowlist ≠ [] := by
          simpa [List.length_eq_zero] using hlen
        simpa using hmem hne

/-- Fixed parser used by the concrete witnesses: it recognises a single
well-formed URL string and fails on everything else. -/
def demoParse : String → Option URLParts := fun s =>
  if s = "https://example.com/ok" then some { protocol := "https:", hostname := "example.com" }
  else none

/-- C1: a destination accepted by the validator (absolute http/https URL
whose lowercased hostname is allowlisted whenever the allowlist is
non-empty) is returned as the original raw string unmodified; every other
destination (parse failure, other scheme, or host not listed) resolves to
the configured fallback.  The resolver is a total function, so it never
fails. -/
theorem c1_destination_validator (parse : String → Option URLParts)
    (allowlist : List String) (raw : String) :
    (specValidatorAccepts parse allowlist raw → resolveDest parse allowlist raw = raw) ∧
    (¬ specValidatorAccepts parse allowlist raw →
      resolveDest parse allowlist raw = fallbackDest) := by
  constructor
  · intro h
    have hb : isAllowedDest parse allowlist raw = true :=
      (isAllowedDest_iff parse allowlist raw).mpr h
    simp [resolveDest, hb]
  · intro h
    have hb : isAllowedDest parse allowlist raw = false := by
      by_cases hd : isAllowedDest parse allowlist raw = true
      · exact absurd ((isAllowedDest_iff parse allowlist raw).mp hd) h
      · simpa using hd
    simp [resolveDest, hb]

theorem c1_destination_validator_witness :
    resolveDest demoParse ["example.com"] "https://example.com/ok" = "https://example.com/ok" ∧
    resolveDest demoParse ["example.com"] "https://evil.com/x" = fallbackDest := by
  constructor
  · exact (c1_destination_validator demoParse ["example.com"] "https://example.com/ok").1
      ⟨{ protocol := "https:", hostname := "example.com" }, by decide, Or.inr rfl,
        fun _ => by decide⟩
  · exact (c1_destination_validator demoParse ["example.com"] "https://evil.com/x").2
      (by rintro ⟨u, hu, -, -⟩; simp [demoParse] at hu)

/-- C10: with FOB_ADMIN_PASS unset, the hardened variant resolves the
secret to the literal "testpass", so a request is authorized exactly when
it presents that header value; the first variant compares the header
directly to the unset variable, so a request omitting the header entirely
(undefined === undefined) is authorized. -/
theorem c10_admin_secret_unset :
    (∀ header : Option String, adminOK (ADMIN none) header = (header == some "testpass")) ∧
    adminOKFirst none none = true := by
  constructor
  · intro header; rfl
  · rfl

/-- Steps of one execution of the GET /go/:slug handler, at the
granularity the concurrency claim talks about. -/
inductive GoStep where
  | insertStart
  | insertDone
  | insertCaught
  | counterInc
  | respond
deriving DecidableEq, Repr

/-- Order of events in one run of the GET /go/:slug handler, read off the
source: the insert into clicks is awaited inside try/catch (so it either
resolves or its rejection is caught) before clicksTotal.inc runs and
before res.redirect sends the response; with no pool the insert is
skipped. -/
def goHandlerTrace (hasPool : Bool) (insertOk : Bool) : List GoStep :=
  (if hasPool then
    [GoStep.insertStart, if insertOk then GoStep.insertDone else GoStep.insertCaught]
  else []) ++ [GoStep.counterInc, GoStep.respond]

/-- The ordering property asserted by the spec: the response is emitted
strictly before the store append settles, i.e. the append is not awaited. -/
def RespondNotGatedOnInsert (tr : List GoStep) : Prop :=
  tr.indexOf GoStep.respond < tr.indexOf GoStep.insertDone ∧
  tr.indexOf GoStep.respond < tr.indexOf GoStep.insertCaught

/-- C2 counterexample: in the handler as written (pool configured, insert
succeeding), the insert settles at position 1 of the trace while the
response is emitted at position 3, so the response is not concurrent with
the append and is delayed by its completion. -/
theorem c2_counterexample : ¬ RespondNotGatedOnInsert (goHandlerTrace true true) := by
  unfold RespondNotGatedOnInsert goHandlerTrace
  decide

/-- C2 amended: the store write is awaited: in every run with a configured
pool the insert settles (resolves, or rejects and is caught) strictly
before the redirect response is sent; the response therefore waits for
the append, though an insert failure still does not change what is sent. -/
theorem c2_amended_insert_awaited (insertOk : Bool) :
    (goHandlerTrace true insertOk).indexOf
        (if insertOk then GoStep.insertDone else GoStep.insertCaught) <
      (goHandlerTrace true insertOk).indexOf GoStep.respond := by
  cases insertOk <;> decide

/-- pool = null unless DATABASE_URL is set (the empty string is falsy), in
which case a bounded pool with idle and connection timeouts is created. -/
structure PoolCfg where
  maxConns : Nat
  idleTimeoutMillis : Nat
  connectionTimeoutMillis : Nat
deriving DecidableEq, Repr

def poolOf (databaseUrl : String) : Option PoolCfg :=
  if databaseUrl = "" then none
  else some { maxConns := 10, idleTimeoutMillis := 30000, connectionTimeoutMillis := 10000 }

/-- windowMs of the goLimiter. -/
def rateWindowMs : Nat := 60000

/-- max of the goLimiter. -/
def rateMax : Nat := 120

/-- Association-list lookup with default 0, for counter labels and rate
limiter hit counts. -/
def lookupNat (m : List (String × Nat)) (k : String) : Nat :=
  match m with
  | [] => 0
  | (k2, v) :: rest => if k2 = k then v else lookupNat rest k

/-- Increment-by-one upsert, modelling clicksTotal.inc for a slug label and
the rate limiter store increment for a client key. -/
def incKey (m : List (String × Nat)) (k : String) : List (String × Nat) :=
  match m with
  | [] => [(k, 1)]
  | (k2, v) :: rest => if k2 = k then (k2, v + 1) :: rest else (k2, v) :: incKey rest k

/-- ip = (req.headers["x-forwarded-for"] || req.ip || "").split(",")[0].trim():
first hop of the forwarded-for chain, falling back to the transport peer
address; empty strings are falsy in JS. -/
def clientIP (r : Request) : String :=
  let base :=
    match r.xForwardedFor with
    | some s => if s ≠ "" then s else (if r.ip ≠ "" then r.ip else "")
    | none => if r.ip ≠ "" then r.ip else ""
  trimStr ((splitComma base).headD "")

/-- Express route matching for "/go/:slug": a path of the form "/go/" ++ slug
with a single non-empty segment. -/
def matchGoSlug (p : String) : Option String :=
  if startsWithStr p "/go/" then
    let rest := dropStr p 4
    if rest ≠ "" ∧ ¬ containsChar rest '/' then some rest else none
  else none

/-- Express mount matching for app.use("/go", goLimiter). -/
def goMount (p : String) : Bool :=
  p == "/go" || startsWithStr p "/go/"

/-- A plain text response with no Location header. -/
def textResp (st : Nat) (b : String) : Response :=
  { status := st, location := none, headers := [], body := b }

/-- Response of the admin authorization failure branch. -/
def forbiddenResp : Response := textResp 403 "forbidden"

/-- Response of the kill switch gate. -/
def serviceUnavailableResp : Response := textResp 503 "Service unavailable"

/-- GET /status: counts clicks (0 without a pool), always answers 200; a
store error is caught and reported in the JSON body. -/
def statusRoute (cx : Codecs) (cfg : Config) (nowIso : String) (dbFails : Bool)
    (s : ServerState) : Response × ServerState :=
  if (poolOf cfg.databaseUrl).isSome && dbFails then
    (textResp 200 (cx.encStatusJson false nowIso 0), s)
  else
    (textResp 200 (cx.encStatusJson true nowIso
      (if (poolOf cfg.databaseUrl).isSome then s.clicks.length else 0)), s)

/-- POST /admin/kill: requires the shared secret, sets app.locals.killed. -/
def adminKillRoute (secret : String) (s : ServerState) (r : Request) :
    Response × ServerState :=
  if ¬ adminOK secret r.adminPass then (forbiddenResp, s)
  else (textResp 200 "killed", { s with killed := true })

/-- POST /admin/unkill: requires the shared secret, clears app.locals.killed. -/
def adminUnkillRoute (secret : String) (s : ServerState) (r : Request) :
    Response × ServerState :=
  if ¬ adminOK secret r.adminPass then (forbiddenResp, s)
  else (textResp 200 "un-killed", { s with killed := false })

/-- The goLimiter (express-rate-limit with windowMs 60000, max 120,
standardHeaders on and legacyHeaders off) followed by the GET /go/:slug
handler.  The memory store counts one hit per request (also for rejected
ones) and resets when the fixed window has elapsed; over the limit the
client gets 429 with the draft standard RateLimit headers and no legacy
X-RateLimit variants.  The handler resolves the destination, awaits the
insert into clicks (skipped without a pool, error swallowed when the store
fails), increments clicks_total for the slug and redirects 302. -/
def goRoute (cx : Codecs) (cfg : Config) (nowMs : Nat) (ts : Timestamp)
    (dbFails : Bool) (s : ServerState) (r : Request) : Response × ServerState :=
  let rs0 := s.rate
  let rs1 := if rs0.windowStart + rateWindowMs ≤ nowMs then
      { windowStart := nowMs, hits := [] } else rs0
  let total := lookupNat rs1.hits r.ip + 1
  let rs2 : RateState := { rs1 with hits := incKey rs1.hits r.ip }
  let hdrs := [("RateLimit-Limit", toString rateMax),
               ("RateLimit-Remaining", toString (rateMax - min total rateMax)),
               ("RateLimit-Reset", toString ((rs1.windowStart + rateWindowMs - nowMs) / 1000))]
  let s2 := { s with rate := rs2 }
  if rateMax < total then
    ({ status := 429, location := none, headers := hdrs,
       body := "Too many requests, please try again later." }, s2)
  else
    match matchGoSlug r.path with
    | none => ({ status := 404, location := none, headers := hdrs, body := "" }, s2)
    | some slug =>
      let rawDest := resolveRawDest r.queryDest
      let dest := resolveDest cx.parseURL (parseAllowlist cfg.destHostAllowlistEnv) rawDest
      let ipStr := clientIP r
      let uaStr := r.userAgent.getD ""
      let s3 := if (poolOf cfg.databaseUrl).isSome && !dbFails then
          { s2 with clicks := s2.clicks ++
            [{ id := s2.clicks.length + 1, ts := ts, slug := slug, dest := dest,
               ip := ipStr, ua := uaStr }] }
        else s2
      let s4 := { s3 with counters := incKey s3.counters slug }
      ({ status := 302, location := some dest, headers := hdrs, body := "" }, s4)

/-- SELECT ts, slug, left(dest, 60) AS dest FROM clicks ORDER BY id DESC
LIMIT 5, evaluated against the table rows listed in insertion order (the
SERIAL id is assigned in insertion order, so ORDER BY id DESC is the
reverse of the stored list). -/
def adminLastEvents (clicks : List ClickEvent) : List ClickEvent :=
  clicks.reverse.take 5

def adminLastSelect (clicks : List ClickEvent) : List LastRow :=
  (adminLastEvents clicks).map
    (fun e => { ts := e.ts, slug := e.slug, dest := takeStr e.dest 60 })

/-- GET /admin/last. -/
def adminLastRoute (cx : Codecs) (cfg : Config) (secret : String) (dbFails : Bool)
    (s : ServerState) (r : Request) : Response × ServerState :=
  if ¬ adminOK secret r.adminPass then (forbiddenResp, s)
  else if (poolOf cfg.databaseUrl).isSome && dbFails then
    (textResp 500 "error", s)
  else
    let rows := if (poolOf cfg.databaseUrl).isSome then adminLastSelect s.clicks else []
    (textResp 200 (cx.encLastJson rows), s)

/-- SELECT * FROM clicks ORDER BY id DESC LIMIT 1000, against the
insertion-ordered table rows. -/
def exportSelect (clicks : List ClickEvent) : List ClickEvent :=
  clicks.reverse.take 1000

/-- GET /admin/export. -/
def adminExportRoute (cx : Codecs) (cfg : Config) (secret : String) (dbFails : Bool)
    (s : ServerState) (r : Request) : Response × ServerState :=
  if ¬ adminOK secret r.adminPass then (forbiddenResp, s)
  else if (poolOf cfg.databaseUrl).isSome && dbFails then
    (textResp 500 "error exporting CSV" , s)
  else
    let rows := if (poolOf cfg.databaseUrl).isSome then exportSelect s.clicks else []
    ({ status := 200, location := none,
       headers := [("Content-Type", "text/csv"),
                   ("Content-Disposition", "attachment; filename=clicks.csv")],
       body := cx.encCsv rows }, s)

/-- day = (req.query.day || new Date().toISOString().slice(0, 10)).trim();
the current UTC date is the first ten characters of the ISO timestamp. -/
def dayParam (q : Option String) (nowIso : String) : String :=
  trimStr (match q with
    | none => takeStr nowIso 10
    | some s => if s = "" then takeStr nowIso 10 else s)

/-- SELECT ... FROM clicks WHERE ts::date = $1::date ORDER BY id, against
the insertion-ordered table rows (ORDER BY id ascending keeps insertion
order, and filtering preserves it). -/
def exportDaySelect (clicks : List ClickEvent) (d : PgDate) : List ClickEvent :=
  clicks.filter (fun e => decide (e.ts.date = d))

/-- Response of GET /admin/export/day past the auth check: an unparsable
day makes the $1::date cast throw, which the catch turns into a 500;
without a pool the query is skipped and an empty row set is exported.
The server state is never modified by this endpoint. -/
def adminExportDayResp (cx : Codecs) (cfg : Config) (day : String)
    (clicks : List ClickEvent) (dbFails : Bool) : Response :=
  let csvOut := fun rows =>
    { status := 200, location := none,
      headers := [("Content-Type", "text/csv"),
                  ("Content-Disposition", "attachment; filename=clicks_" ++ day ++ ".csv")],
      body := cx.encCsv rows }
  if (poolOf cfg.databaseUrl).isSome then
    if dbFails then textResp 500 "export error"
    else
      match cx.parseDate day with
      | none => textResp 500 "export error"
      | some d => csvOut (exportDaySelect clicks d)
  else csvOut []

/-- GET /admin/export/day. -/
def adminExportDayRoute (cx : Codecs) (cfg : Config) (secret : String) (nowIso : String)
    (dbFails : Bool) (s : ServerState) (r : Request) : Response × ServerState :=
  if ¬ adminOK secret r.adminPass then (forbiddenResp, s)
  else (adminExportDayResp cx cfg (dayParam r.queryDay nowIso) s.clicks dbFails, s)

/-- GET /metrics. -/
def metricsRoute (cx : Codecs) (s : ServerState) : Response × ServerState :=
  ({ status := 200, location := none,
     headers := [("Content-Type", "text/plain")],
     body := cx.encMetrics s.counters }, s)

/-- One request through the hardened variant middleware and route stack, in
registration order: GET /status, then the kill switch gate (503 for every
path not under /admin while killed), then POST /admin/kill and
/admin/unkill, GET /, the goLimiter mounted on /go followed by
GET /go/:slug, GET /admin/last, GET /admin/export, GET /admin/export/day,
GET /metrics, and the implicit 404 fallthrough.  nowMs is the request
arrival time for the rate limiter, nowIso the ISO timestamp of the same
instant, ts the insertion timestamp the store assigns, and dbFails whether
store queries fail on this request. -/
def handleRequest (cx : Codecs) (cfg : Config) (nowMs : Nat) (nowIso : String)
    (ts : Timestamp) (dbFails : Bool) (s : ServerState) (r : Request) :
    Response × ServerState :=
  if r.method = "GET" ∧ r.path = "/status" then
    statusRoute cx cfg nowIso dbFails s
  else if s.killed = true ∧ startsWithStr r.path "/admin" = false then
    (serviceUnavailableResp, s)
  else if r.method = "POST" ∧ r.path = "/admin/kill" then
    adminKillRoute (ADMIN cfg.fobAdminPass) s r
  else if r.method = "POST" ∧ r.path = "/admin/unkill" then
    adminUnkillRoute (ADMIN cfg.fobAdminPass) s r
  else if r.method = "GET" ∧ r.path = "/" then
    (textResp 200 "online", s)
  else if goMount r.path = true then
    goRoute cx cfg nowMs ts dbFails s r
  else if r.method = "GET" ∧ r.path = "/admin/last" then
    adminLastRoute cx cfg (ADMIN cfg.fobAdminPass) dbFails s r
  else if r.method = "GET" ∧ r.path = "/admin/export" then
    adminExportRoute cx cfg (ADMIN cfg.fobAdminPass) dbFails s r
  else if r.method = "GET" ∧ r.path = "/admin/export/day" then
    adminExportDayRoute cx cfg (ADMIN cfg.fobAdminPass) nowIso dbFails s r
  else if r.method = "GET" ∧ r.path = "/metrics" then
    metricsRoute cx s
  else
    (textResp 404 "not found", s)

/-- Fresh process state: app.locals.killed is undefined hence falsy, no
counters, an empty rate limiter window, and (for a fresh deployment) an
empty clicks table. -/
def initServerState : ServerState :=
  { killed := false, clicks := [], counters := [],
    rate := { windowStart := 0, hits := [] } }

/-- Fixed date parser used by the concrete witnesses. -/
def demoParseDate : String → Option PgDate := fun s =>
  if s = "2024-01-15" then some { y := 2024, m := 1, d := 15 } else none

/-- Concrete collaborators for the witnesses. -/
def demoCodecs : Codecs :=
  { parseURL := demoParse, parseDate := demoParseDate,
    encLastJson := fun _ => "json", encCsv := fun _ => "csv",
    encMetrics := fun _ => "metrics", encStatusJson := fun _ _ _ => "status" }

def demoTs : Timestamp := { date := { y := 2024, m := 1, d := 15 }, tod := 7 }

def demoCfg : Config :=
  { fobAdminPass := some "s3cret", databaseUrl := "postgres://db",
    destHostAllowlistEnv := "" }

def demoCfgNoDb : Config :=
  { fobAdminPass := some "s3cret", databaseUrl := "", destHostAllowlistEnv := "" }

def demoGoReq : Request :=
  { method := "GET", path := "/go/a", queryDest := none, queryDay := none,
    xForwardedFor := none, ip := "9.9.9.9", userAgent := none, adminPass := none }

def demoStatusReq : Request :=
  { method := "GET", path := "/status", queryDest := none, queryDay := none,
    xForwardedFor := none, ip := "9.9.9.9", userAgent := none, adminPass := none }

def demoKillReq : Request :=
  { method := "POST", path := "/admin/kill", queryDest := none, queryDay := none,
    xForwardedFor := none, ip := "9.9.9.9", userAgent := none,
    adminPass := some "s3cret" }

def demoUnkillReq : Request :=
  { demoKillReq with path := "/admin/unkill" }

def demoLastReq : Request :=
  { demoKillReq with method := "GET", path := "/admin/last" }

def demoDayReq : Request :=
  { demoKillReq with
    method := "GET"
    path := "/admin/export/day"
    queryDay := some "2024-01-15" }

theorem startsWith_of_matchGoSlug {p a : String} (h : matchGoSlug p = some a) :
    startsWithStr p "/go/" = true := by
  unfold matchGoSlug at h
  by_cases hs : startsWithStr p "/go/" = true
  · exact hs
  · simp [hs] at h

/-- An authorized POST /admin/kill runs the kill handler whatever the
current kill state is. -/
theorem handleRequest_kill_eq (cx : Codecs) (cfg : Config) (nowMs : Nat)
    (nowIso : String) (ts : Timestamp) (dbFails : Bool) (s : ServerState)
    (r : Request) (hm : r.method = "POST") (hp : r.path = "/admin/kill")
    (ha : r.adminPass = some (ADMIN cfg.fobAdminPass)) :
    handleRequest cx cfg nowMs nowIso ts dbFails s r =
      (textResp 200 "killed", { s with killed := true }) := by
  simp +decide [handleRequest, hm, hp, ha, adminKillRoute, adminOK, startsWithStr]

/-- An authorized POST /admin/unkill runs the unkill handler whatever the
current kill state is. -/
theorem handleRequest_unkill_eq (cx : Codecs) (cfg : Config) (nowMs : Nat)
    (nowIso : String) (ts : Timestamp) (dbFails : Bool) (s : ServerState)
    (r : Request) (hm : r.method = "POST") (hp : r.path = "/admin/unkill")
    (ha : r.adminPass = some (ADMIN cfg.fobAdminPass)) :
    handleRequest cx cfg nowMs nowIso ts dbFails s r =
      (textResp 200 "un-killed", { s with killed := false }) := by
  simp +decide [handleRequest, hm, hp, ha, adminUnkillRoute, adminOK, startsWithStr]

/-- C3 counterexample: the GET /status route is registered before the kill
gate middleware, so with the kill switch engaged a request to /status (a
path not under the admin namespace) is answered 200, not 503. -/
theorem c3_counterexample :
    startsWithStr demoStatusReq.path "/admin" = false ∧
    (handleRequest demoCodecs demoCfg 0 "2024-01-15T00:00:00Z" demoTs false
        { initServerState with killed := true } demoStatusReq).1.status = 200 := by
  constructor
  · decide
  · rfl

/-- C3 amended: while the kill switch is engaged, every request whose path
is not under the admin namespace, other than the status endpoint
registered before the gate, receives 503 with the server state returned
untouched (no click event, no counter increment, no rate limiter hit);
requests to the admin endpoints get the same response as they would with
the switch off. -/
theorem c3_kill_switch_gate (cx : Codecs) (cfg : Config) (nowMs : Nat)
    (nowIso : String) (ts : Timestamp) (dbFails : Bool) (s : ServerState)
    (r : Request) (hk : s.killed = true) :
    (startsWithStr r.path "/admin" = false →
      ¬ (r.method = "GET" ∧ r.path = "/status") →
      handleRequest cx cfg nowMs nowIso ts dbFails s r = (serviceUnavailableResp, s)) ∧
    ((r.path = "/admin/kill" ∨ r.path = "/admin/unkill" ∨ r.path = "/admin/last" ∨
        r.path = "/admin/export" ∨ r.path = "/admin/export/day") →
      (handleRequest cx cfg nowMs nowIso ts dbFails s r).1 =
        (handleRequest cx cfg nowMs nowIso ts dbFails { s with killed := false } r).1) := by
  constructor
  · intro hadm hstatus
    unfold handleRequest
    rw [if_neg hstatus, if_pos ⟨hk, hadm⟩]
  · intro hp
    rcases hp with hp | hp | hp | hp | hp <;>
      simp +decide [handleRequest, hp, startsWithStr, hk, adminKillRoute,
        adminUnkillRoute, adminLastRoute, adminExportRoute, adminExportDayRoute,
        goMount, apply_ite Prod.fst]

theorem c3_kill_switch_gate_witness :
    handleRequest demoCodecs demoCfg 0 "2024-01-15T00:00:00Z" demoTs false
        { initServerState with killed := true } demoGoReq =
      (serviceUnavailableResp, { initServerState with killed := true }) :=
  (c3_kill_switch_gate demoCodecs demoCfg 0 "2024-01-15T00:00:00Z" demoTs false
      { initServerState with killed := true } demoGoReq rfl).1 (by decide) (by decide)

/-- C7: the kill switch starts live (app.locals.killed is initially
falsy); an authenticated kill on an already-killed switch leaves it killed
and still answers 200, kill twice from live ends killed, and an
authenticated unkill on a live switch leaves it live and answers 200. -/
theorem c7_kill_unkill_idempotent (cx : Codecs) (cfg : Config) (nowMs : Nat)
    (nowIso : String) (ts : Timestamp) (dbFails : Bool) (s t : ServerState)
    (rk ru : Request)
    (hkm : rk.method = "POST") (hkp : rk.path = "/admin/kill")
    (hum : ru.method = "POST") (hup : ru.path = "/admin/unkill")
    (hka : rk.adminPass = some (ADMIN cfg.fobAdminPass))
    (hua : ru.adminPass = some (ADMIN cfg.fobAdminPass))
    (hs : s.killed = true) (ht : t.killed = false) :
    initServerState.killed = false ∧
    ((handleRequest cx cfg nowMs nowIso ts dbFails s rk).2.killed = true ∧
      (handleRequest cx cfg nowMs nowIso ts dbFails s rk).1.status = 200) ∧
    ((handleRequest cx cfg nowMs nowIso ts dbFails
        (handleRequest cx cfg nowMs nowIso ts dbFails t rk).2 rk).2.killed = true) ∧
    ((handleRequest cx cfg nowMs nowIso ts dbFails t ru).2.killed = false ∧
      (handleRequest cx cfg nowMs nowIso ts dbFails t ru).1.status = 200) := by
  refine ⟨rfl, ?_, ?_, ?_⟩
  · rw [handleRequest_kill_eq cx cfg nowMs nowIso ts dbFails s rk hkm hkp hka]
    exact ⟨rfl, rfl⟩
  · rw [handleRequest_kill_eq cx cfg nowMs nowIso ts dbFails t rk hkm hkp hka,
      handleRequest_kill_eq cx cfg nowMs nowIso ts dbFails _ rk hkm hkp hka]
  · rw [handleRequest_unkill_eq cx cfg nowMs nowIso ts dbFails t ru hum hup hua]
    exact ⟨rfl, rfl⟩

theorem c7_kill_unkill_idempotent_witness :
    (handleRequest demoCodecs demoCfg 0 "2024-01-15T00:00:00Z" demoTs false
        { initServerState with killed := true } demoKillReq).2.killed = true ∧
    (handleRequest demoCodecs demoCfg 0 "2024-01-15T00:00:00Z" demoTs false
        initServerState demoUnkillReq).2.killed = false :=
  ⟨((c7_kill_unkill_idempotent demoCodecs demoCfg 0 "2024-01-15T00:00:00Z" demoTs false
      { initServerState with killed := true } initServerState demoKillReq demoUnkillReq
      rfl rfl rfl rfl rfl rfl rfl rfl).2.1).1,
   ((c7_kill_unkill_idempotent demoCodecs demoCfg 0 "2024-01-15T00:00:00Z" demoTs false
      { initServerState with killed := true } initServerState demoKillReq demoUnkillReq
      rfl rfl rfl rfl rfl rfl rfl rfl).2.2.2).1⟩

theorem lookupNat_incKey_self (m : List (String × Nat)) (k : String) :
    lookupNat (incKey m k) k = lookupNat m k + 1 := by
  induction m with
  | nil => simp [incKey, lookupNat]
  | cons h t ih =>
    obtain ⟨k2, v⟩ := h
    by_cases hk : k2 = k
    · simp [incKey, lookupNat, hk]
    · simp [incKey, lookupNat, hk, ih]

/-- A GET request for a /go path on a live server reaches the goLimiter
and the redirect handler. -/
theorem handleRequest_go_eq (cx : Codecs) (cfg : Config) (nowMs : Nat)
    (nowIso : String) (ts : Timestamp) (dbFails : Bool) (s : ServerState)
    (r : Request) (hm : r.method = "GET") (hsw : startsWithStr r.path "/go/" = true)
    (hk : s.killed = false) :
    handleRequest cx cfg nowMs nowIso ts dbFails s r =
      goRoute cx cfg nowMs ts dbFails s r := by
  have h1 : ¬ (r.method = "GET" ∧ r.path = "/status") := by
    rintro ⟨-, h⟩
    rw [h] at hsw
    exact absurd hsw (by decide)
  have h2 : ¬ (s.killed = true ∧ startsWithStr r.path "/admin" = false) := by
    rintro ⟨h, -⟩
    rw [hk] at h
    cases h
  have h3 : ¬ (r.method = "POST" ∧ r.path = "/admin/kill") := by
    rintro ⟨h, -⟩
    rw [hm] at h
    exact absurd h (by decide)
  have h4 : ¬ (r.method = "POST" ∧ r.path = "/admin/unkill") := by
    rintro ⟨h, -⟩
    rw [hm] at h
    exact absurd h (by decide)
  have h5 : ¬ (r.method = "GET" ∧ r.path = "/") := by
    rintro ⟨-, h⟩
    rw [h] at hsw
    exact absurd hsw (by decide)
  have h6 : goMount r.path = true := by simp [goMount, hsw]
  unfold handleRequest
  rw [if_neg h1, if_neg h2, if_neg h3, if_neg h4, if_neg h5, if_pos h6]

/-- C4: when the store insert of the click event fails, the error is
caught and absorbed: the request still completes with HTTP 302 whose
Location is the resolved destination, no click event is stored (and none
is retried), and the clicks_total counter for the slug is still
incremented by one. -/
theorem c4_insert_failure_absorbed (cx : Codecs) (cfg : Config) (nowMs : Nat)
    (nowIso : String) (ts : Timestamp) (s : ServerState) (r : Request)
    (slug : String) (hm : r.method = "GET") (hslug : matchGoSlug r.path = some slug)
    (hk : s.killed = false) (hpool : (poolOf cfg.databaseUrl).isSome = true)
    (hwin : nowMs < s.rate.windowStart + rateWindowMs)
    (hrate : lookupNat s.rate.hits r.ip + 1 ≤ rateMax) :
    (handleRequest cx cfg nowMs nowIso ts true s r).1.status = 302 ∧
    (handleRequest cx cfg nowMs nowIso ts true s r).1.location =
      some (resolveDest cx.parseURL (parseAllowlist cfg.destHostAllowlistEnv)
        (resolveRawDest r.queryDest)) ∧
    (handleRequest cx cfg nowMs nowIso ts true s r).2.clicks = s.clicks ∧
    lookupNat (handleRequest cx cfg nowMs nowIso ts true s r).2.counters slug =
      lookupNat s.counters slug + 1 := by
  rw [handleRequest_go_eq cx cfg nowMs nowIso ts true s r hm
    (startsWith_of_matchGoSlug hslug) hk]
  have h1 : ¬ (s.rate.windowStart + rateWindowMs ≤ nowMs) := Nat.not_le.mpr hwin
  have h2 : ¬ (rateMax < lookupNat s.rate.hits r.ip + 1) := Nat.not_lt.mpr hrate
  simp [goRoute, if_neg h1, h2, hslug, hpool, lookupNat_incKey_self]

theorem c4_insert_failure_absorbed_witness :
    (handleRequest demoCodecs demoCfg 0 "2024-01-15T00:00:00Z" demoTs true
        initServerState demoGoReq).1.status = 302 ∧
    (handleRequest demoCodecs demoCfg 0 "2024-01-15T00:00:00Z" demoTs true
        initServerState demoGoReq).2.clicks = [] :=
  ⟨(c4_insert_failure_absorbed demoCodecs demoCfg 0 "2024-01-15T00:00:00Z" demoTs
      initServerState demoGoReq "a" rfl (by decide) rfl (by decide) (by decide)
      (by decide)).1,
   (c4_insert_failure_absorbed demoCodecs demoCfg 0 "2024-01-15T00:00:00Z" demoTs
      initServerState demoGoReq "a" rfl (by decide) rfl (by decide) (by decide)
      (by decide)).2.2.1⟩

/-- C5: with no DATABASE_URL the process creates no pool at startup,
logging is skipped entirely (a no-op that cannot fail), and a redirect
request still completes with HTTP 302 to the resolved destination, stores
nothing, and still counts the click: the service keeps redirecting with
zero persistence. -/
theorem c5_no_store_configured (cx : Codecs) (cfg : Config) (nowMs : Nat)
    (nowIso : String) (ts : Timestamp) (dbFails : Bool) (s : ServerState)
    (r : Request) (slug : String) (hdb : cfg.databaseUrl = "")
    (hm : r.method = "GET") (hslug : matchGoSlug r.path = some slug)
    (hk : s.killed = false)
    (hwin : nowMs < s.rate.windowStart + rateWindowMs)
    (hrate : lookupNat s.rate.hits r.ip + 1 ≤ rateMax) :
    poolOf cfg.databaseUrl = none ∧
    (handleRequest cx cfg nowMs nowIso ts dbFails s r).1.status = 302 ∧
    (handleRequest cx cfg nowMs nowIso ts dbFails s r).1.location =
      some (resolveDest cx.parseURL (parseAllowlist cfg.destHostAllowlistEnv)
        (resolveRawDest r.queryDest)) ∧
    (handleRequest cx cfg nowMs nowIso ts dbFails s r).2.clicks = s.clicks ∧
    lookupNat (handleRequest cx cfg nowMs nowIso ts dbFails s r).2.counters slug =
      lookupNat s.counters slug + 1 := by
  have hpool : poolOf cfg.databaseUrl = none := by simp [poolOf, hdb]
  refine ⟨hpool, ?_⟩
  rw [handleRequest_go_eq cx cfg nowMs nowIso ts dbFails s r hm
    (startsWith_of_matchGoSlug hslug) hk]
  have h1 : ¬ (s.rate.windowStart + rateWindowMs ≤ nowMs) := Nat.not_le.mpr hwin
  have h2 : ¬ (rateMax < lookupNat s.rate.hits r.ip + 1) := Nat.not_lt.mpr hrate
  simp [goRoute, if_neg h1, h2, hslug, hpool, lookupNat_incKey_self]

theorem c5_no_store_configured_witness :
    poolOf demoCfgNoDb.databaseUrl = none ∧
    (handleRequest demoCodecs demoCfgNoDb 0 "2024-01-15T00:00:00Z" demoTs false
        initServerState demoGoReq).1.status = 302 :=
  ⟨(c5_no_store_configured demoCodecs demoCfgNoDb 0 "2024-01-15T00:00:00Z" demoTs false
      initServerState demoGoReq "a" rfl rfl (by decide) rfl (by decide) (by decide)).1,
   (c5_no_store_configured demoCodecs demoCfgNoDb 0 "2024-01-15T00:00:00Z" demoTs false
      initServerState demoGoReq "a" rfl rfl (by decide) rfl (by decide) (by decide)).2.1⟩

/-- A six-event store used by the admin endpoint witnesses: ids 1..6 in
insertion order, with timestamps on two different days. -/
def demoEvent (i : Nat) (day : Nat) : ClickEvent :=
  { id := i, ts := { date := { y := 2024, m := 1, d := day }, tod := 0 },
    slug := "s", dest := "https://example.com/p", ip := "9.9.9.9", ua := "" }

def demoClicks : List ClickEvent :=
  [demoEvent 1 15, demoEvent 2 15, demoEvent 3 16, demoEvent 4 15,
   demoEvent 5 16, demoEvent 6 15]

/-- C8: GET /admin/last answers 403 with no further processing when the
shared-secret header does not match; otherwise (store reachable) it
answers 200 with the JSON encoding of the selection, and that selection
has at most 5 rows, is ordered most-recent-insertion-first (strictly
descending by id whenever the stored ids are strictly ascending), and each
row carries the timestamp, the slug and the destination truncated to 60
characters. -/
theorem c8_admin_last (cx : Codecs) (cfg : Config) (nowMs : Nat) (nowIso : String)
    (ts : Timestamp) (dbFails : Bool) (s : ServerState) (r : Request)
    (hm : r.method = "GET") (hp : r.path = "/admin/last") :
    (adminOK (ADMIN cfg.fobAdminPass) r.adminPass = false →
      handleRequest cx cfg nowMs nowIso ts dbFails s r = (forbiddenResp, s)) ∧
    (adminOK (ADMIN cfg.fobAdminPass) r.adminPass = true →
      (poolOf cfg.databaseUrl).isSome = true → dbFails = false →
      handleRequest cx cfg nowMs nowIso ts dbFails s r =
        (textResp 200 (cx.encLastJson (adminLastSelect s.clicks)), s)) ∧
    (adminLastSelect s.clicks).length ≤ 5 ∧
    (List.Pairwise (fun a b => a.id < b.id) s.clicks →
      List.Pairwise (fun a b => b.id < a.id) (adminLastEvents s.clicks)) ∧
    adminLastSelect s.clicks = (adminLastEvents s.clicks).map
      (fun e => { ts := e.ts, slug := e.slug, dest := takeStr e.dest 60 }) := by
  refine ⟨?_, ?_, ?_, ?_, rfl⟩
  · intro hauth
    simp +decide [handleRequest, hm, hp, startsWithStr, goMount, adminLastRoute, hauth]
  · intro hauth hpool hdb
    simp +decide [handleRequest, hm, hp, startsWithStr, goMount, adminLastRoute,
      hauth, hpool, hdb]
  · simp only [adminLastSelect, adminLastEvents, List.length_map, List.length_take]
    omega
  · intro hpair
    have hrev : List.Pairwise (fun a b => b.id < a.id) s.clicks.reverse := by
      rw [List.pairwise_reverse]
      exact hpair
    exact hrev.sublist (List.take_sublist 5 s.clicks.reverse)

theorem c8_admin_last_witness :
    handleRequest demoCodecs demoCfg 0 "2024-01-15T00:00:00Z" demoTs false
        { initServerState with clicks := demoClicks } demoLastReq =
      (textResp 200 (demoCodecs.encLastJson
        (adminLastSelect demoClicks)), { initServerState with clicks := demoClicks }) ∧
    List.Pairwise (fun a b => b.id < a.id) (adminLastEvents demoClicks) :=
  ⟨(c8_admin_last demoCodecs demoCfg 0 "2024-01-15T00:00:00Z" demoTs false
      { initServerState with clicks := demoClicks } demoLastReq rfl rfl).2.1
      (by decide) (by decide) rfl,
   (c8_admin_last demoCodecs demoCfg 0 "2024-01-15T00:00:00Z" demoTs false
      { initServerState with clicks := demoClicks } demoLastReq rfl rfl).2.2.2.1
      (by decide)⟩

/-- C9: GET /admin/export/day answers 403 on a bad secret; otherwise, with
the day parameter defaulting to the current UTC date (the first ten
characters of the ISO timestamp) when absent, it answers 200 with the CSV
encoding of exactly the stored events whose timestamp date component
equals the parsed day, kept in insertion order (a sublist of the stored
order), under a Content-Disposition filename parameterized by the day. -/
theorem c9_export_day (cx : Codecs) (cfg : Config) (nowMs : Nat) (nowIso : String)
    (ts : Timestamp) (dbFails : Bool) (s : ServerState) (r : Request)
    (hm : r.method = "GET") (hp : r.path = "/admin/export/day") :
    (adminOK (ADMIN cfg.fobAdminPass) r.adminPass = false →
      handleRequest cx cfg nowMs nowIso ts dbFails s r = (forbiddenResp, s)) ∧
    (∀ d, adminOK (ADMIN cfg.fobAdminPass) r.adminPass = true →
      (poolOf cfg.databaseUrl).isSome = true → dbFails = false →
      cx.parseDate (dayParam r.queryDay nowIso) = some d →
      handleRequest cx cfg nowMs nowIso ts dbFails s r =
        ({ status := 200, location := none,
           headers := [("Content-Type", "text/csv"),
             ("Content-Disposition",
               "attachment; filename=clicks_" ++ dayParam r.queryDay nowIso ++ ".csv")],
           body := cx.encCsv (exportDaySelect s.clicks d) }, s)) ∧
    (∀ d e, e ∈ exportDaySelect s.clicks d ↔ e ∈ s.clicks ∧ e.ts.date = d) ∧
    (∀ d, List.Sublist (exportDaySelect s.clicks d) s.clicks) ∧
    (r.queryDay = none → dayParam r.queryDay nowIso = trimStr (takeStr nowIso 10)) := by
  refine ⟨?_, ?_, ?_, ?_, ?_⟩
  · intro hauth
    simp +decide [handleRequest, hm, hp, startsWithStr, goMount, adminExportDayRoute, hauth]
  · intro d hauth hpool hdb hday
    simp +decide [handleRequest, hm, hp, startsWithStr, goMount, adminExportDayRoute,
      adminExportDayResp, hauth, hpool, hdb, hday]
  · intro d e
    simp [exportDaySelect, List.mem_filter]
  · intro d
    exact List.filter_sublist s.clicks
  · intro hq
    simp [dayParam, hq]

theorem c9_export_day_witness :
    handleRequest demoCodecs demoCfg 0 "2024-01-15T00:00:00Z" demoTs false
        { initServerState with clicks := demoClicks } demoDayReq =
      ({ status := 200, location := none,
         headers := [("Content-Type", "text/csv"),
           ("Content-Disposition",
             "attachment; filename=clicks_" ++
               dayParam demoDayReq.queryDay "2024-01-15T00:00:00Z" ++ ".csv")],
         body := demoCodecs.encCsv
           (exportDaySelect demoClicks { y := 2024, m := 1, d := 15 }) },
       { initServerState with clicks := demoClicks }) :=
  (c9_export_day demoCodecs demoCfg 0 "2024-01-15T00:00:00Z" demoTs false
      { initServerState with clicks := demoClicks } demoDayReq rfl rfl).2.1
    { y := 2024, m := 1, d := 15 } (by decide) (by decide) rfl (by decide)

/-- State of the server after n repetitions of the same request, each at
the same arrival instant. -/
def iterServer (cx : Codecs) (cfg : Config) (nowMs : Nat) (nowIso : String)
    (ts : Timestamp) (dbFails : Bool) (r : Request) : Nat → ServerState → ServerState
  | 0, s => s
  | n + 1, s =>
    (handleRequest cx cfg nowMs nowIso ts dbFails
      (iterServer cx cfg nowMs nowIso ts dbFails r n s) r).2

/-- Across repeated identical redirect requests inside one rate window,
the server stays live, the window start is unchanged, and the memory
store has counted exactly one hit per request (hits are consumed also by
rejected requests). -/
theorem iterServer_go_invariant (cx : Codecs) (cfg : Config) (nowMs : Nat)
    (nowIso : String) (ts : Timestamp) (dbFails : Bool) (r : Request)
    (slug : String) (s0 : ServerState) (w : Nat)
    (hm : r.method = "GET") (hslug : matchGoSlug r.path = some slug)
    (hk0 : s0.killed = false) (hw0 : s0.rate.windowStart = w)
    (hh0 : lookupNat s0.rate.hits r.ip = 0) (hwin : nowMs < w + rateWindowMs) :
    ∀ n, (iterServer cx cfg nowMs nowIso ts dbFails r n s0).killed = false ∧
      (iterServer cx cfg nowMs nowIso ts dbFails r n s0).rate.windowStart = w ∧
      lookupNat (iterServer cx cfg nowMs nowIso ts dbFails r n s0).rate.hits r.ip = n := by
  intro n
  induction n with
  | zero => exact ⟨hk0, hw0, hh0⟩
  | succ n ih =>
    obtain ⟨ihk, ihw, ihh⟩ := ih
    have hstep : iterServer cx cfg nowMs nowIso ts dbFails r (n + 1) s0 =
        (handleRequest cx cfg nowMs nowIso ts dbFails
          (iterServer cx cfg nowMs nowIso ts dbFails r n s0) r).2 := rfl
    rw [hstep, handleRequest_go_eq cx cfg nowMs nowIso ts dbFails _ r hm
      (startsWith_of_matchGoSlug hslug) ihk]
    have hno : ¬ (w + rateWindowMs ≤ nowMs) := Nat.not_le.mpr hwin
    by_cases hov : rateMax < n + 1
    · simp [goRoute, hno, hov, hslug, lookupNat_incKey_self, ihk, ihw, ihh,
        apply_ite ServerState.killed, apply_ite ServerState.rate]
    · simp [goRoute, hno, hov, hslug, lookupNat_incKey_self, ihk, ihw, ihh,
        apply_ite ServerState.killed, apply_ite ServerState.rate]

/-- C6: the limiter is the one mounted on the redirect path only (requests
outside /go never touch the rate store), with a fixed 60 second window and
at most 120 requests per client key: of 121 identical redirect requests
from the same key inside one window, requests 1 through 120 are answered
302 and the 121st is answered 429 carrying the draft standard RateLimit
informational headers (limit and remaining quota and reset time) and no
legacy X-RateLimit header variants. -/
theorem c6_rate_limiter (cx : Codecs) (cfg : Config) (nowIso : String)
    (ts : Timestamp) (dbFails : Bool) (r : Request) (slug : String)
    (s0 : ServerState) (nowMs w : Nat)
    (hm : r.method = "GET") (hslug : matchGoSlug r.path = some slug)
    (hk0 : s0.killed = false) (hw0 : s0.rate.windowStart = w)
    (hh0 : lookupNat s0.rate.hits r.ip = 0) (hwin : nowMs < w + rateWindowMs) :
    rateWindowMs = 60000 ∧ rateMax = 120 ∧
    (∀ k, k < 120 →
      (handleRequest cx cfg nowMs nowIso ts dbFails
        (iterServer cx cfg nowMs nowIso ts dbFails r k s0) r).1.status = 302) ∧
    ((handleRequest cx cfg nowMs nowIso ts dbFails
        (iterServer cx cfg nowMs nowIso ts dbFails r 120 s0) r).1.status = 429 ∧
      ("RateLimit-Limit", "120") ∈ (handleRequest cx cfg nowMs nowIso ts dbFails
        (iterServer cx cfg nowMs nowIso ts dbFails r 120 s0) r).1.headers ∧
      ("RateLimit-Remaining", "0") ∈ (handleRequest cx cfg nowMs nowIso ts dbFails
        (iterServer cx cfg nowMs nowIso ts dbFails r 120 s0) r).1.headers ∧
      ∀ p ∈ (handleRequest cx cfg nowMs nowIso ts dbFails
          (iterServer cx cfg nowMs nowIso ts dbFails r 120 s0) r).1.headers,
        p.1 = "RateLimit-Limit" ∨ p.1 = "RateLimit-Remaining" ∨ p.1 = "RateLimit-Reset") ∧
    (∀ (r2 : Request) (s : ServerState), goMount r2.path = false →
      ((handleRequest cx cfg nowMs nowIso ts dbFails s r2).2).rate = s.rate) := by
  refine ⟨rfl, rfl, ?_, ?_, ?_⟩
  · intro k hk
    obtain ⟨ihk, ihw, ihh⟩ := iterServer_go_invariant cx cfg nowMs nowIso ts dbFails r
      slug s0 w hm hslug hk0 hw0 hh0 hwin k
    rw [handleRequest_go_eq cx cfg nowMs nowIso ts dbFails _ r hm
      (startsWith_of_matchGoSlug hslug) ihk]
    have hno : ¬ (w + rateWindowMs ≤ nowMs) := Nat.not_le.mpr hwin
    have hov : ¬ (rateMax < k + 1) := by
      simp only [rateMax]
      omega
    simp [goRoute, hno, hov, hslug, ihw, ihh]
  · obtain ⟨ihk, ihw, ihh⟩ := iterServer_go_invariant cx cfg nowMs nowIso ts dbFails r
      slug s0 w hm hslug hk0 hw0 hh0 hwin 120
    rw [handleRequest_go_eq cx cfg nowMs nowIso ts dbFails _ r hm
      (startsWith_of_matchGoSlug hslug) ihk]
    have hno : ¬ (w + rateWindowMs ≤ nowMs) := Nat.not_le.mpr hwin
    have hov : rateMax < 120 + 1 := by
      simp only [rateMax]
      omega
    refine ⟨?_, ?_, ?_, ?_⟩ <;>
      simp [goRoute, hno, hov, ihw, ihh, rateMax] <;> decide
  · intro r2 s hgo
    unfold handleRequest
    by_cases h1 : r2.method = "GET" ∧ r2.path = "/status"
    · rw [if_pos h1]
      unfold statusRoute
      split_ifs <;> rfl
    rw [if_neg h1]
    by_cases h2 : s.killed = true ∧ startsWithStr r2.path "/admin" = false
    · rw [if_pos h2]
    rw [if_neg h2]
    by_cases h3 : r2.method = "POST" ∧ r2.path = "/admin/kill"
    · rw [if_pos h3]
      unfold adminKillRoute
      split_ifs <;> rfl
    rw [if_neg h3]
    by_cases h4 : r2.method = "POST" ∧ r2.path = "/admin/unkill"
    · rw [if_pos h4]
      unfold adminUnkillRoute
      split_ifs <;> rfl
    rw [if_neg h4]
    by_cases h5 : r2.method = "GET" ∧ r2.path = "/"
    · rw [if_pos h5]
    rw [if_neg h5]
    rw [if_neg (show ¬ (goMount r2.path = true) by simp [hgo])]
    by_cases h7 : r2.method = "GET" ∧ r2.path = "/admin/last"
    · rw [if_pos h7]
      unfold adminLastRoute
      split_ifs <;> rfl
    rw [if_neg h7]
    by_cases h8 : r2.method = "GET" ∧ r2.path = "/admin/export"
    · rw [if_pos h8]
      unfold adminExportRoute
      split_ifs <;> rfl
    rw [if_neg h8]
    by_cases h9 : r2.method = "GET" ∧ r2.path = "/admin/export/day"
    · rw [if_pos h9]
      unfold adminExportDayRoute
      split_ifs <;> rfl
    rw [if_neg h9]
    by_cases h10 : r2.method = "GET" ∧ r2.path = "/metrics"
    · rw [if_pos h10]
      rfl
    rw [if_neg h10]

theorem c6_rate_limiter_witness :
    (handleRequest demoCodecs demoCfgNoDb 0 "2024-01-15T00:00:00Z" demoTs false
        (iterServer demoCodecs demoCfgNoDb 0 "2024-01-15T00:00:00Z" demoTs false
          demoGoReq 0 initServerState) demoGoReq).1.status = 302 ∧
    (handleRequest demoCodecs demoCfgNoDb 0 "2024-01-15T00:00:00Z" demoTs false
        (iterServer demoCodecs demoCfgNoDb 0 "2024-01-15T00:00:00Z" demoTs false
          demoGoReq 120 initServerState) demoGoReq).1.status = 429 :=
  ⟨(c6_rate_limiter demoCodecs demoCfgNoDb "2024-01-15T00:00:00Z" demoTs false
      demoGoReq "a" initServerState 0 0 rfl (by decide) rfl rfl rfl
      (by decide)).2.2.1 0 (by decide),
   (c6_rate_limiter demoCodecs demoCfgNoDb "2024-01-15T00:00:00Z" demoTs false
      demoGoReq "a" initServerState 0 0 rfl (by decide) rfl rfl rfl
      (by decide)).2.2.2.1.1⟩

end TinyFob
